import Mathlib

/-!
# Inventory-consistent order engine: shallow embedding

A shallow embedding of the order/stock engine of the repository
(`src/app/routes/orders.ts`, the product routes, and the SQLite schema in
`src/app/database.ts`), together with proofs settling the specification
claims.

Modelling conventions:
* The SQLite database is a record of row lists; `SELECT ... WHERE id = ?`
  followed by `.get` is `List.find?`, `UPDATE ... WHERE id = ?` maps over
  the list touching the matching rows, `DELETE ... WHERE ...` is
  `List.filter` with the negated condition, `INSERT` appends.
* `better-sqlite3` is synchronous, so every route handler runs to
  completion before the next starts; an HTTP-level operation is one atomic
  step of the model, and "concurrent" requests are an arbitrary
  serialization of whole operations.
* SQLite `REAL` prices are modelled as exact rationals (`Rat`); no claim
  under study depends on floating-point rounding.
* `stock` and `quantity` are SQLite `INTEGER`s, modelled as `Int` (the
  code nowhere constrains them to be non-negative).
* The order lifecycle `status` is a raw `TEXT` column validated against a
  list of strings, exactly as in the source.
* `uuidv4()` results are taken as parameters (the caller supplies a fresh
  id); the never-consulted `id` primary key of `order_items` rows and the
  `created_at`/`updated_at` timestamp columns are omitted.
* Handlers return early with an HTTP error before any write on every
  failure path, so operations are `Except ApiError ...`; the `run*`
  wrappers give the state-transformer view in which a failed operation
  leaves the database unchanged.
-/

/-- A row of the `products` table (`database.ts`): id, name, description,
price (REAL), stock (INTEGER), category, image_url. -/
structure Product where
  pid : String
  name : String
  description : String
  price : Rat
  stock : Int
  category : String
  imageUrl : String
deriving DecidableEq

/-- A row of the `orders` table: id, user_id, status (TEXT, default
'pending'), total (REAL), shipping_address. -/
structure Order where
  oid : String
  userId : String
  status : String
  total : Rat
  shipping : String
deriving DecidableEq

/-- A row of the `order_items` table: order_id, product_id, quantity
(INTEGER), price (REAL).  The uuid primary key is never consulted and is
omitted. -/
structure OrderItemRow where
  orderId : String
  productId : String
  quantity : Int
  price : Rat
deriving DecidableEq

/-- The database state.  Only the existence of a user id is ever consulted
by the order engine (`SELECT * FROM users WHERE id = ?` followed by a
truthiness test), so the `users` table is its list of ids. -/
structure DB where
  users : List String
  products : List Product
  orders : List Order
  orderItems : List OrderItemRow
deriving DecidableEq

/-- The distinct error responses of the route handlers. -/
inductive ApiError where
  /-- `Missing required fields: user_id, items (array)` (400). -/
  | missingFields
  /-- `User not found` (404). -/
  | userNotFound
  /-- `Product not found: <pid>` in order creation, `Product not found`
  in the product routes (404). -/
  | productNotFound (pid : String)
  /-- `Insufficient stock for product: <name>` in order creation (400). -/
  | insufficientStockFor (productName : String)
  /-- `Insufficient stock` in the stock-adjustment route (400). -/
  | insufficientStock
  /-- `Order not found` (404). -/
  | orderNotFound
  /-- `Invalid status. Must be one of: ...` (400). -/
  | invalidStatus
  /-- `Cannot cancel delivered order` (400). -/
  | cannotCancelDelivered
  /-- `Price must be a positive number` (400). -/
  | invalidPrice
deriving DecidableEq

/-- `SELECT * FROM products WHERE id = ?` + `.get`. -/
def findProduct (db : DB) (pid : String) : Option Product :=
  db.products.find? (fun p => p.pid == pid)

/-- `SELECT * FROM orders WHERE id = ?` + `.get`. -/
def findOrder (db : DB) (oid : String) : Option Order :=
  db.orders.find? (fun o => o.oid == oid)

/-- `SELECT * FROM order_items WHERE order_id = ?` + `.all`. -/
def itemsOfOrder (db : DB) (oid : String) : List OrderItemRow :=
  db.orderItems.filter (fun r => r.orderId == oid)

/-- The stock column of the product with the given id, when it exists. -/
def stockOf (db : DB) (pid : String) : Option Int :=
  (findProduct db pid).map (fun p => p.stock)

/-- The price column of the product with the given id, when it exists. -/
def priceOf (db : DB) (pid : String) : Option Rat :=
  (findProduct db pid).map (fun p => p.price)

/-- `UPDATE products SET stock = stock - ? WHERE id = ?`
(order creation, `orders.ts` line 131). -/
def reduceStock (db : DB) (pid : String) (q : Int) : DB :=
  { db with products := db.products.map (fun p =>
      if p.pid == pid then { p with stock := p.stock - q } else p) }

/-- `UPDATE products SET stock = stock + ? WHERE id = ?`
(order cancellation, `orders.ts` line 200). -/
def restoreStock (db : DB) (pid : String) (q : Int) : DB :=
  { db with products := db.products.map (fun p =>
      if p.pid == pid then { p with stock := p.stock + q } else p) }

/-- `UPDATE products SET stock = ? WHERE id = ?`
(stock adjustment route, setting the precomputed new stock). -/
def setStock (db : DB) (pid : String) (newStock : Int) : DB :=
  { db with products := db.products.map (fun p =>
      if p.pid == pid then { p with stock := newStock } else p) }

/-- An entry of the in-memory `orderItems` array built by the validation
loop of `POST /api/orders`: product id, quantity, snapshot price. -/
structure PendingItem where
  productId : String
  quantity : Int
  price : Rat
deriving DecidableEq

/-- The validation loop of `POST /api/orders` (`orders.ts` lines 91-111):
for each requested item, resolve the product (else 404 naming the id),
check `product.stock < item.quantity` (else 400 naming the product),
accumulate `total += product.price * item.quantity` and push the snapshot
item.  The loop only reads the database. -/
def validateItems (db : DB) (items : List (String × Int)) (total : Rat)
    (acc : List PendingItem) : Except ApiError (Rat × List PendingItem) :=
  match items with
  | [] => .ok (total, acc)
  | (pid, qty) :: rest =>
    match findProduct db pid with
    | none => .error (.productNotFound pid)
    | some p =>
      if p.stock < qty then
        .error (.insufficientStockFor p.name)
      else
        validateItems db rest (total + p.price * (qty : Rat))
          (acc ++ [{ productId := pid, quantity := qty, price := p.price }])

/-- The `order_items` row that committing order `oid` inserts for a
validated pending item. -/
def rowOf (oid : String) (it : PendingItem) : OrderItemRow :=
  { orderId := oid, productId := it.productId, quantity := it.quantity,
    price := it.price }

/-- One iteration of the commit loop of `POST /api/orders` (lines
123-133): insert the item's `order_items` row, then
`UPDATE products SET stock = stock - ? WHERE id = ?`. -/
def commitStep (oid : String) (d : DB) (it : PendingItem) : DB :=
  reduceStock { d with orderItems := d.orderItems ++ [rowOf oid it] }
    it.productId it.quantity

/-- The `createOrder` transaction of `POST /api/orders` (lines 115-136):
insert the order row with status `'pending'`, then for each validated item
insert its `order_items` row and decrement the product's stock. -/
def commitOrder (db : DB) (oid uid addr : String) (total : Rat)
    (pending : List PendingItem) : DB :=
  let db1 : DB :=
    { db with orders := db.orders ++
        [{ oid := oid, userId := uid, status := "pending",
           total := total, shipping := addr }] }
  pending.foldl (commitStep oid) db1

/-- `POST /api/orders` (lines 70-147): field presence check, user
existence check, validation loop, then the commit transaction, finally
re-selecting the inserted order for the response. -/
def createOrder (db : DB) (oid uid : String) (items : List (String × Int))
    (addr : String) : Except ApiError (DB × Option Order) :=
  if uid = "" ∨ items.isEmpty then .error .missingFields
  else if db.users.contains uid then
    match validateItems db items 0 [] with
    | .error e => .error e
    | .ok (total, pending) =>
      let db1 := commitOrder db oid uid addr total pending
      .ok (db1, findOrder db1 oid)
  else .error .userNotFound

/-- The five recognized status strings (`orders.ts` line 153). -/
def validStatuses : List String :=
  ["pending", "processing", "shipped", "delivered", "cancelled"]

/-- `PATCH /api/orders/:id/status` (lines 150-175): reject unrecognized
status strings, reject missing orders, then unconditionally overwrite the
status column — the current status is never read. -/
def updateStatus (db : DB) (oid st : String) :
    Except ApiError (DB × Option Order) :=
  if validStatuses.contains st then
    match findOrder db oid with
    | none => .error .orderNotFound
    | some _ =>
      let db1 : DB :=
        { db with orders := db.orders.map (fun o =>
            if o.oid == oid then { o with status := st } else o) }
      .ok (db1, findOrder db1 oid)
  else .error .invalidStatus

/-- `DELETE /api/orders/:id` (lines 178-214): reject missing orders,
reject `status === 'delivered'`, then in one transaction restore stock
for every line item of the order and delete the line items and the
order row. -/
def cancelOrder (db : DB) (oid : String) : Except ApiError DB :=
  match findOrder db oid with
  | none => .error .orderNotFound
  | some o =>
    if o.status = "delivered" then .error .cannotCancelDelivered
    else
      let items := itemsOfOrder db oid
      let db1 := items.foldl
        (fun d it => restoreStock d it.productId it.quantity) db
      .ok { db1 with
              orderItems := db1.orderItems.filter (fun r => r.orderId != oid),
              orders := db1.orders.filter (fun r => r.oid != oid) }

/-- `GET /api/orders/:id` (lines 43-67): the order row with its items. -/
def getOrder (db : DB) (oid : String) :
    Except ApiError (Order × List OrderItemRow) :=
  match findOrder db oid with
  | none => .error .orderNotFound
  | some o => .ok (o, itemsOfOrder db oid)

/-- `PATCH /api/products/:id/stock` (products router): resolve the
product (else 404), compute `newStock = stock + quantity`, reject
`newStock < 0`, else persist and return the new stock. -/
def adjustStock (db : DB) (pid : String) (delta : Int) :
    Except ApiError (DB × Int) :=
  match findProduct db pid with
  | none => .error (.productNotFound pid)
  | some p =>
    let newStock := p.stock + delta
    if newStock < 0 then .error .insufficientStock
    else .ok (setStock db pid newStock, newStock)

/-- `PUT /api/products/:id` (products router): resolve the product (else
404), reject a present negative price, then `COALESCE` each supplied
field over the previous value.  Orders and order items are untouched. -/
def updateProduct (db : DB) (pid : String)
    (name description : Option String) (price : Option Rat)
    (stock : Option Int) (category imageUrl : Option String) :
    Except ApiError (DB × Option Product) :=
  match findProduct db pid with
  | none => .error (.productNotFound pid)
  | some _ =>
    if (match price with | some pr => decide (pr < 0) | none => false) then
      .error .invalidPrice
    else
      let db1 : DB :=
        { db with products := db.products.map (fun p =>
            if p.pid == pid then
              { p with
                  name := name.getD p.name,
                  description := description.getD p.description,
                  price := price.getD p.price,
                  stock := stock.getD p.stock,
                  category := category.getD p.category,
                  imageUrl := imageUrl.getD p.imageUrl }
            else p) }
      .ok (db1, findProduct db1 pid)

/-- State-transformer view of order creation: a failed request leaves the
database unchanged (every error return in the handler happens before the
transaction starts). -/
def runCreate (db : DB) (oid uid : String) (items : List (String × Int))
    (addr : String) : DB :=
  match createOrder db oid uid items addr with
  | .ok (db1, _) => db1
  | .error _ => db

/-- State-transformer view of cancellation. -/
def runCancel (db : DB) (oid : String) : DB :=
  match cancelOrder db oid with
  | .ok db1 => db1
  | .error _ => db

/-- State-transformer view of a product update. -/
def runUpdateProduct (db : DB) (pid : String)
    (name description : Option String) (price : Option Rat)
    (stock : Option Int) (category imageUrl : Option String) : DB :=
  match updateProduct db pid name description price stock category imageUrl with
  | .ok (db1, _) => db1
  | .error _ => db

/-- Total quantity that the `order_items` rows of list `L` attribute to
product `pid`. -/
def qtySum (L : List OrderItemRow) (pid : String) : Int :=
  ((L.filter (fun r => r.productId == pid)).map (fun r => r.quantity)).sum

/-- Total quantity that the validated pending items attribute to
product `pid`. -/
def pendingQtySum (L : List PendingItem) (pid : String) : Int :=
  ((L.filter (fun it => it.productId == pid)).map (fun it => it.quantity)).sum

/-- Total quantity that a requested items list attributes to product
`pid`. -/
def orderedQty (items : List (String × Int)) (pid : String) : Int :=
  ((items.filter (fun it => it.1 == pid)).map (fun it => it.2)).sum

/-- The snapshot pending item the validation loop builds for a requested
item, priced from the current catalog. -/
def pendingOf (db : DB) (it : String × Int) : PendingItem :=
  { productId := it.1, quantity := it.2, price := (priceOf db it.1).getD 0 }

/-- The order total the validation loop computes: the sum over items of
current catalog price times quantity. -/
def totalOf (db : DB) (items : List (String × Int)) : Rat :=
  (items.map (fun it => (priceOf db it.1).getD 0 * (it.2 : Rat))).sum

/-- A serialization of "concurrent" quantity-1 order requests for one
product (each a whole synchronous handler run; `better-sqlite3` serializes
handlers).  Returns the final database, the number of 201 responses, and
the number of `Insufficient stock` failures. -/
def runUnitOrders (uid pid addr : String) (oids : List String) (db : DB) :
    DB × Nat × Nat :=
  match oids with
  | [] => (db, 0, 0)
  | oid :: rest =>
    match createOrder db oid uid [(pid, 1)] addr with
    | .ok (db1, _) =>
      let r := runUnitOrders uid pid addr rest db1
      (r.1, r.2.1 + 1, r.2.2)
    | .error (.insufficientStockFor _) =>
      let r := runUnitOrders uid pid addr rest db
      (r.1, r.2.1, r.2.2 + 1)
    | .error _ =>
      let r := runUnitOrders uid pid addr rest db
      (r.1, r.2.1, r.2.2)

/-- State-transformer view of a stock adjustment. -/
def runAdjust (db : DB) (pid : String) (delta : Int) : DB :=
  match adjustStock db pid delta with
  | .ok (db1, _) => db1
  | .error _ => db

/-- Whether the validation loop's per-item check fails for a requested
item against the current catalog: the product exists and its stock is
below the requested quantity. -/
def insuffItem (db : DB) (it : String × Int) : Bool :=
  match findProduct db it.1 with
  | some p => decide (p.stock < it.2)
  | none => false

/-- A small catalog state used to instantiate proved theorems. -/
def sampleProduct : Product :=
  { pid := "p1", name := "Widget", description := "", price := 10,
    stock := 5, category := "tools", imageUrl := "" }

/-- A database with one user and one product in stock 5. -/
def sampleDB : DB :=
  { users := ["u1"], products := [sampleProduct], orders := [],
    orderItems := [] }

/-- A delivered order for three widgets. -/
def deliveredOrder : Order :=
  { oid := "o1", userId := "u1", status := "delivered", total := 30,
    shipping := "" }

/-- A database holding a delivered order for three widgets. -/
def deliveredDB : DB :=
  { users := ["u1"], products := [sampleProduct],
    orders := [deliveredOrder],
    orderItems := [{ orderId := "o1", productId := "p1", quantity := 3,
                     price := 10 }] }

/-- A widget with exactly one unit of stock. -/
def oversellProduct : Product :=
  { pid := "p1", name := "Widget", description := "", price := 10,
    stock := 1, category := "", imageUrl := "" }

/-- A database with one unit of stock, used to exercise an order whose
items list mentions the same product twice. -/
def oversellDB : DB :=
  { users := ["u1"], products := [oversellProduct],
    orders := [], orderItems := [] }

/-! ## Infrastructure lemmas -/

/-- `find?` by a string key commutes with mapping a key-preserving
function over the table. -/
theorem find?_key_map {α : Type} (key : α → String) (h : α → α)
    (hk : ∀ x, key (h x) = key x) (l : List α) (k : String) :
    (l.map h).find? (fun x => key x == k)
      = (l.find? (fun x => key x == k)).map h := by
  have hpred : ((fun x => key x == k) ∘ h) = (fun x => key x == k) := by
    funext x
    simp [Function.comp, hk]
  rw [List.find?_map h l, hpred]

/-- The row `findProduct` returns carries the looked-up id. -/
theorem findProduct_key (db : DB) (pid : String) (p : Product)
    (hp : findProduct db pid = some p) : p.pid = pid := by
  unfold findProduct at hp
  simpa using List.find?_some hp

/-- The row `findOrder` returns carries the looked-up id. -/
theorem findOrder_key (db : DB) (oid : String) (o : Order)
    (ho : findOrder db oid = some o) : o.oid = oid := by
  unfold findOrder at ho
  simpa using List.find?_some ho

/-- Effect of the stock-decrement `UPDATE` on product lookups. -/
theorem findProduct_reduceStock (db : DB) (pid : String) (q : Int)
    (k : String) :
    findProduct (reduceStock db pid q) k
      = (findProduct db k).map (fun p =>
          if p.pid == pid then { p with stock := p.stock - q } else p) := by
  unfold findProduct reduceStock
  exact find?_key_map Product.pid _
    (by intro x; cases hx : x.pid == pid <;> simp [hx]) db.products k

/-- Effect of the stock-restore `UPDATE` on product lookups. -/
theorem findProduct_restoreStock (db : DB) (pid : String) (q : Int)
    (k : String) :
    findProduct (restoreStock db pid q) k
      = (findProduct db k).map (fun p =>
          if p.pid == pid then { p with stock := p.stock + q } else p) := by
  unfold findProduct restoreStock
  exact find?_key_map Product.pid _
    (by intro x; cases hx : x.pid == pid <;> simp [hx]) db.products k

/-- Effect of the stock-set `UPDATE` on product lookups. -/
theorem findProduct_setStock (db : DB) (pid : String) (n : Int)
    (k : String) :
    findProduct (setStock db pid n) k
      = (findProduct db k).map (fun p =>
          if p.pid == pid then { p with stock := n } else p) := by
  unfold findProduct setStock
  exact find?_key_map Product.pid _
    (by intro x; cases hx : x.pid == pid <;> simp [hx]) db.products k

/-- Effect of the status `UPDATE` on order lookups. -/
theorem findOrder_setStatus (db : DB) (oid st : String) (k : String) :
    (({ db with orders := db.orders.map (fun o =>
          if o.oid == oid then { o with status := st } else o) } : DB).orders.find?
            (fun o => o.oid == k))
      = (db.orders.find? (fun o => o.oid == k)).map (fun o =>
          if o.oid == oid then { o with status := st } else o) := by
  exact find?_key_map Order.oid _
    (by intro x; cases hx : x.oid == oid <;> simp [hx]) db.orders k

/-- Stock view of a single restore update. -/
theorem stockOf_restoreStock (db : DB) (k : String) (q : Int)
    (pid : String) :
    stockOf (restoreStock db k q) pid
      = (stockOf db pid).map (fun s => if pid == k then s + q else s) := by
  unfold stockOf
  rw [findProduct_restoreStock]
  cases hp : findProduct db pid with
  | none => simp
  | some p =>
    have hkey := findProduct_key db pid p hp
    by_cases hc : pid = k <;> simp [hkey, hc]

/-- Stock view of a single decrement update. -/
theorem stockOf_reduceStock (db : DB) (k : String) (q : Int)
    (pid : String) :
    stockOf (reduceStock db k q) pid
      = (stockOf db pid).map (fun s => if pid == k then s - q else s) := by
  unfold stockOf
  rw [findProduct_reduceStock]
  cases hp : findProduct db pid with
  | none => simp
  | some p =>
    have hkey := findProduct_key db pid p hp
    by_cases hc : pid = k <;> simp [hkey, hc]

/-- Splitting the per-product quantity sum at the head row. -/
theorem qtySum_cons (it : OrderItemRow) (rest : List OrderItemRow)
    (pid : String) :
    qtySum (it :: rest) pid
      = (if it.productId == pid then it.quantity else 0) + qtySum rest pid := by
  cases h : it.productId == pid <;> simp [qtySum, List.filter_cons, h]

/-- Splitting the per-product pending quantity sum at the head item. -/
theorem pendingQtySum_cons (it : PendingItem) (rest : List PendingItem)
    (pid : String) :
    pendingQtySum (it :: rest) pid
      = (if it.productId == pid then it.quantity else 0)
          + pendingQtySum rest pid := by
  cases h : it.productId == pid <;> simp [pendingQtySum, List.filter_cons, h]

/-- The cancellation restore loop leaves the `orders` table alone. -/
theorem foldl_restore_orders (L : List OrderItemRow) (db : DB) :
    (L.foldl (fun d it => restoreStock d it.productId it.quantity) db).orders
      = db.orders := by
  induction L generalizing db with
  | nil => rfl
  | cons it rest ih => rw [List.foldl_cons]; exact ih _

/-- The cancellation restore loop leaves the `order_items` table alone. -/
theorem foldl_restore_orderItems (L : List OrderItemRow) (db : DB) :
    (L.foldl (fun d it => restoreStock d it.productId it.quantity) db).orderItems
      = db.orderItems := by
  induction L generalizing db with
  | nil => rfl
  | cons it rest ih => rw [List.foldl_cons]; exact ih _

/-- Stock view of the cancellation restore loop: every product gains the
total quantity its rows carry. -/
theorem stockOf_foldl_restore (L : List OrderItemRow) (db : DB)
    (pid : String) :
    stockOf (L.foldl (fun d it => restoreStock d it.productId it.quantity) db) pid
      = (stockOf db pid).map (fun s => s + qtySum L pid) := by
  induction L generalizing db with
  | nil => cases h : stockOf db pid <;> simp [qtySum, h]
  | cons it rest ih =>
    rw [List.foldl_cons, ih, stockOf_restoreStock]
    cases h : stockOf db pid with
    | none => simp
    | some s =>
      by_cases hc : pid = it.productId
      · simp [hc, qtySum_cons, add_assoc]
      · have hc2 : ¬ it.productId = pid := fun hh => hc hh.symm
        simp [hc, hc2, qtySum_cons]

/-- The commit loop leaves the `users` table alone. -/
theorem foldl_commit_users (oid : String) (pending : List PendingItem)
    (db : DB) :
    (pending.foldl (commitStep oid) db).users = db.users := by
  induction pending generalizing db with
  | nil => rfl
  | cons it rest ih => rw [List.foldl_cons]; exact ih _

/-- The commit loop leaves the `orders` table alone. -/
theorem foldl_commit_orders (oid : String) (pending : List PendingItem)
    (db : DB) :
    (pending.foldl (commitStep oid) db).orders = db.orders := by
  induction pending generalizing db with
  | nil => rfl
  | cons it rest ih => rw [List.foldl_cons]; exact ih _

/-- The commit loop appends exactly one `order_items` row per validated
item. -/
theorem foldl_commit_orderItems (oid : String) (pending : List PendingItem)
    (db : DB) :
    (pending.foldl (commitStep oid) db).orderItems
      = db.orderItems ++ pending.map (rowOf oid) := by
  induction pending generalizing db with
  | nil => simp
  | cons it rest ih =>
    rw [List.foldl_cons, ih]
    simp [commitStep, reduceStock, List.append_assoc]

/-- Stock view of a single commit-loop step. -/
theorem stockOf_commitStep (oid : String) (d : DB) (it : PendingItem)
    (pid : String) :
    stockOf (commitStep oid d it) pid
      = (stockOf d pid).map (fun s =>
          if pid == it.productId then s - it.quantity else s) := by
  have h1 : stockOf (commitStep oid d it) pid
      = stockOf (reduceStock d it.productId it.quantity) pid := rfl
  rw [h1, stockOf_reduceStock]

/-- Stock view of the commit loop: every product loses the total quantity
the validated items attribute to it. -/
theorem stockOf_foldl_commit (oid : String) (pending : List PendingItem)
    (db : DB) (pid : String) :
    stockOf (pending.foldl (commitStep oid) db) pid
      = (stockOf db pid).map (fun s => s - pendingQtySum pending pid) := by
  induction pending generalizing db with
  | nil => cases h : stockOf db pid <;> simp [pendingQtySum, h]
  | cons it rest ih =>
    rw [List.foldl_cons, ih, stockOf_commitStep]
    cases h : stockOf db pid with
    | none => simp
    | some s =>
      by_cases hc : pid = it.productId
      · simp [hc, pendingQtySum_cons, sub_sub]
      · have hc2 : ¬ it.productId = pid := fun hh => hc hh.symm
        simp [hc, hc2, pendingQtySum_cons]

/-- When every requested item resolves and has sufficient stock, the
validation loop returns the accumulated total and the snapshot items. -/
theorem validateItems_ok (db : DB) (items : List (String × Int)) (t : Rat)
    (acc : List PendingItem)
    (hall : ∀ it ∈ items, ∃ p, findProduct db it.1 = some p ∧ ¬ p.stock < it.2) :
    validateItems db items t acc
      = .ok (t + totalOf db items, acc ++ items.map (pendingOf db)) := by
  induction items generalizing t acc with
  | nil => simp [validateItems, totalOf]
  | cons hd rest ih =>
    obtain ⟨p, hp, hs⟩ := hall hd (by simp)
    obtain ⟨pid, qty⟩ := hd
    have hrest : ∀ it ∈ rest, ∃ p, findProduct db it.1 = some p ∧ ¬ p.stock < it.2 :=
      fun it hit => hall it (by simp [hit])
    rw [show validateItems db ((pid, qty) :: rest) t acc
        = validateItems db rest (t + p.price * (qty : Rat))
            (acc ++ [{ productId := pid, quantity := qty, price := p.price }])
      from by simp [validateItems, hp, hs]]
    rw [ih _ _ hrest]
    simp [totalOf, pendingOf, priceOf, hp, add_assoc]

/-- When every requested item resolves but some item's product has
insufficient stock, the validation loop fails with the message naming the
product of the first such item. -/
theorem validateItems_insufficient (db : DB) (items : List (String × Int))
    (t : Rat) (acc : List PendingItem) (pid₀ : String) (q₀ : Int)
    (p₀ : Product)
    (hall : ∀ it ∈ items, (findProduct db it.1).isSome)
    (hfind : items.find? (insuffItem db) = some (pid₀, q₀))
    (hp : findProduct db pid₀ = some p₀) :
    validateItems db items t acc = .error (.insufficientStockFor p₀.name) := by
  induction items generalizing t acc with
  | nil => simp at hfind
  | cons hd rest ih =>
    obtain ⟨pid, qty⟩ := hd
    have hhd : (findProduct db pid).isSome := by
      simpa using hall (pid, qty) (by simp)
    obtain ⟨p, hp'⟩ := Option.isSome_iff_exists.mp hhd
    cases hins : insuffItem db (pid, qty) with
    | true =>
      have heq : ((pid, qty) : String × Int) = (pid₀, q₀) := by
        rw [List.find?_cons, hins] at hfind
        exact Option.some.inj hfind
      have hpe : pid = pid₀ := (Prod.mk.injEq _ _ _ _ ▸ heq).1
      have hlt : p.stock < qty := by
        have := hins
        unfold insuffItem at this
        rw [hp'] at this
        simpa using this
      have hpp : p = p₀ := by
        rw [hpe] at hp'
        exact Option.some.inj (hp'.symm.trans hp)
      subst hpp
      simp [validateItems, hp', hlt]
    | false =>
      have hnlt : ¬ p.stock < qty := by
        have := hins
        unfold insuffItem at this
        rw [hp'] at this
        simpa using this
      have hfind' : rest.find? (insuffItem db) = some (pid₀, q₀) := by
        rw [List.find?_cons, hins] at hfind
        exact hfind
      rw [show validateItems db ((pid, qty) :: rest) t acc
          = validateItems db rest (t + p.price * (qty : Rat))
              (acc ++ [{ productId := pid, quantity := qty, price := p.price }])
        from by simp [validateItems, hp', hnlt]]
      exact ih _ _ (fun it hit => hall it (List.mem_cons_of_mem _ hit)) hfind'

/-- The commit transaction leaves the `users` table alone. -/
theorem commitOrder_users (db : DB) (oid uid addr : String) (total : Rat)
    (pending : List PendingItem) :
    (commitOrder db oid uid addr total pending).users = db.users := by
  unfold commitOrder
  rw [foldl_commit_users]

/-- The commit transaction appends exactly the new order row. -/
theorem commitOrder_orders (db : DB) (oid uid addr : String) (total : Rat)
    (pending : List PendingItem) :
    (commitOrder db oid uid addr total pending).orders
      = db.orders ++ [{ oid := oid, userId := uid, status := "pending",
                        total := total, shipping := addr }] := by
  unfold commitOrder
  rw [foldl_commit_orders]

/-- The commit transaction appends exactly the new line-item rows. -/
theorem commitOrder_orderItems (db : DB) (oid uid addr : String)
    (total : Rat) (pending : List PendingItem) :
    (commitOrder db oid uid addr total pending).orderItems
      = db.orderItems ++ pending.map (rowOf oid) := by
  unfold commitOrder
  rw [foldl_commit_orderItems]

/-- Stock view of the commit transaction. -/
theorem stockOf_commitOrder (db : DB) (oid uid addr : String) (total : Rat)
    (pending : List PendingItem) (pid : String) :
    stockOf (commitOrder db oid uid addr total pending) pid
      = (stockOf db pid).map (fun s => s - pendingQtySum pending pid) := by
  unfold commitOrder
  rw [stockOf_foldl_commit]
  rfl

/-- Looking up a fresh order id after the commit transaction returns the
row just inserted. -/
theorem findOrder_commitOrder_self (db : DB) (oid uid addr : String)
    (total : Rat) (pending : List PendingItem)
    (hfresh : findOrder db oid = none) :
    findOrder (commitOrder db oid uid addr total pending) oid
      = some { oid := oid, userId := uid, status := "pending",
               total := total, shipping := addr } := by
  unfold findOrder at hfresh ⊢
  rw [commitOrder_orders, List.find?_append, hfresh]
  simp

/-- Order lookups for ids other than the fresh one are unchanged by the
commit transaction. -/
theorem findOrder_commitOrder_ne (db : DB) (oid uid addr : String)
    (total : Rat) (pending : List PendingItem) (k : String)
    (hk : k ≠ oid) :
    findOrder (commitOrder db oid uid addr total pending) k
      = findOrder db k := by
  unfold findOrder
  rw [commitOrder_orders, List.find?_append]
  have : ([{ oid := oid, userId := uid, status := "pending",
             total := total, shipping := addr }] : List Order).find?
      (fun o => o.oid == k) = none := by
    simp
    exact fun hh => hk hh.symm
  rw [this]
  cases db.orders.find? (fun o => o.oid == k) <;> simp

/-- Successful order creation decomposed: when the fields are present,
the user exists, and every item resolves with sufficient stock, the
request commits the validated total and snapshot items. -/
theorem createOrder_ok (db : DB) (oid uid : String)
    (items : List (String × Int)) (addr : String)
    (hne : uid ≠ "") (hnil : items ≠ [])
    (hu : db.users.contains uid = true)
    (hall : ∀ it ∈ items, ∃ p, findProduct db it.1 = some p ∧ ¬ p.stock < it.2) :
    createOrder db oid uid items addr
      = .ok (commitOrder db oid uid addr (totalOf db items)
               (items.map (pendingOf db)),
             findOrder (commitOrder db oid uid addr (totalOf db items)
               (items.map (pendingOf db))) oid) := by
  unfold createOrder
  rw [if_neg, if_pos hu, validateItems_ok db items 0 [] hall]
  · simp
  · simp [hne, hnil]

/-! ## Claim theorems -/

/-- Claim C9: for every existing product with stock `s` and every integer
delta, `adjust(productId, delta)` computes `newStock = s + delta`; if
`newStock < 0` it fails with `InsufficientStock` leaving the stock at `s`;
otherwise it persists `newStock`, returns it, and the stock afterwards is
`s + delta`; for an unknown product id it fails with `NotFound`. -/
theorem adjust_stock_contract (db : DB) (pid : String) (delta : Int)
    (p : Product) (hp : findProduct db pid = some p) :
    (p.stock + delta < 0 →
        adjustStock db pid delta = .error .insufficientStock ∧
        runAdjust db pid delta = db ∧
        stockOf (runAdjust db pid delta) pid = some p.stock) ∧
    (¬ p.stock + delta < 0 →
        ∃ db1, adjustStock db pid delta = .ok (db1, p.stock + delta) ∧
          stockOf db1 pid = some (p.stock + delta)) ∧
    (∀ k, findProduct db k = none →
        adjustStock db k delta = .error (.productNotFound k)) := by
  have hstock : stockOf db pid = some p.stock := by
    unfold stockOf
    rw [hp]
    rfl
  refine ⟨?_, ?_, ?_⟩
  · intro hneg
    have herr : adjustStock db pid delta = .error .insufficientStock := by
      unfold adjustStock
      rw [hp]
      simp [hneg]
    have hrun : runAdjust db pid delta = db := by
      unfold runAdjust
      rw [herr]
    exact ⟨herr, hrun, by rw [hrun]; exact hstock⟩
  · intro hpos
    refine ⟨setStock db pid (p.stock + delta), ?_, ?_⟩
    · unfold adjustStock
      rw [hp]
      simp [hpos]
    · unfold stockOf
      rw [findProduct_setStock, hp]
      simp [findProduct_key db pid p hp]
  · intro k hk
    unfold adjustStock
    rw [hk]

/-- Witness for C9 at a concrete input: the product exists, and the
contract holds for a delta of `-2` on stock 5. -/
theorem adjust_stock_contract_witness :
    findProduct sampleDB "p1" = some sampleProduct ∧
    ((sampleProduct.stock + (-2) < 0 →
        adjustStock sampleDB "p1" (-2) = .error .insufficientStock ∧
        runAdjust sampleDB "p1" (-2) = sampleDB ∧
        stockOf (runAdjust sampleDB "p1" (-2)) "p1" = some sampleProduct.stock) ∧
    (¬ sampleProduct.stock + (-2) < 0 →
        ∃ db1, adjustStock sampleDB "p1" (-2) = .ok (db1, sampleProduct.stock + (-2)) ∧
          stockOf db1 "p1" = some (sampleProduct.stock + (-2))) ∧
    (∀ k, findProduct sampleDB k = none →
        adjustStock sampleDB k (-2) = .error (.productNotFound k))) :=
  ⟨by decide, adjust_stock_contract sampleDB "p1" (-2) sampleProduct (by decide)⟩

/-- Claim C2 counterexample: in a database whose order `o1` is
`delivered`, a `PATCH /api/orders/o1/status` request with the recognized
status `processing` succeeds and changes the stored status — the claim
that a delivered order can no longer change status is false for the
status-update route. -/
theorem updateStatus_terminal_counterexample :
    (findOrder deliveredDB "o1").map (fun o => o.status) = some "delivered"
    ∧ ((updateStatus deliveredDB "o1" "processing").toOption.bind
        (fun r => (findOrder r.1 "o1").map (fun o => o.status)))
      = some "processing" := by
  constructor
  · rfl
  · rfl

/-- Claim C2 (amended): the status-update route freezes nothing — for
every existing order, whatever its current status (including `delivered`
and `cancelled`), a request with any of the five recognized status values
succeeds and overwrites the stored status with the requested one; only
cancellation treats `delivered` as terminal. -/
theorem updateStatus_overwrites_any_status (db : DB) (oid st : String)
    (o : Order) (ho : findOrder db oid = some o)
    (hst : validStatuses.contains st = true) :
    ∃ db1, updateStatus db oid st = .ok (db1, some { o with status := st })
      ∧ findOrder db1 oid = some { o with status := st } := by
  have hkey := findOrder_key db oid o ho
  have h1 : findOrder { db with orders := db.orders.map (fun x =>
      if x.oid == oid then { x with status := st } else x) } oid
      = some { o with status := st } := by
    unfold findOrder
    rw [findOrder_setStatus]
    unfold findOrder at ho
    rw [ho]
    simp [hkey]
  refine ⟨_, ?_, h1⟩
  unfold updateStatus
  rw [if_pos hst, ho]
  dsimp only
  rw [h1]

/-- Witness for C2's amended theorem: the delivered order `o1` has its
status overwritten to `processing`. -/
theorem updateStatus_overwrites_any_status_witness :
    findOrder deliveredDB "o1" = some deliveredOrder
    ∧ validStatuses.contains "processing" = true
    ∧ ∃ db1, updateStatus deliveredDB "o1" "processing"
        = .ok (db1, some { deliveredOrder with status := "processing" })
      ∧ findOrder db1 "o1"
        = some { deliveredOrder with status := "processing" } :=
  ⟨by decide, by decide,
    updateStatus_overwrites_any_status deliveredDB "o1" "processing"
      deliveredOrder (by decide) (by decide)⟩

/-- Claim C8: a product update (any combination of name, description,
price, stock, category, image-url changes) leaves every stored order's
total and every stored line item's snapshot price unchanged. -/
theorem price_snapshot_immutable (db : DB) (pid : String)
    (name description : Option String) (price : Option Rat)
    (stk : Option Int) (category imageUrl : Option String) :
    ∀ oid,
      ((findOrder (runUpdateProduct db pid name description price stk
          category imageUrl) oid).map (fun o => o.total)
        = (findOrder db oid).map (fun o => o.total))
      ∧ ((itemsOfOrder (runUpdateProduct db pid name description price stk
          category imageUrl) oid).map (fun r => r.price)
        = (itemsOfOrder db oid).map (fun r => r.price)) := by
  intro oid
  have horders : (runUpdateProduct db pid name description price stk
      category imageUrl).orders = db.orders := by
    unfold runUpdateProduct updateProduct
    cases findProduct db pid with
    | none => rfl
    | some p =>
      cases hpr : (match price with
        | some pr => decide (pr < 0)
        | none => false) <;> simp [hpr]
  have hitems : (runUpdateProduct db pid name description price stk
      category imageUrl).orderItems = db.orderItems := by
    unfold runUpdateProduct updateProduct
    cases findProduct db pid with
    | none => rfl
    | some p =>
      cases hpr : (match price with
        | some pr => decide (pr < 0)
        | none => false) <;> simp [hpr]
  constructor
  · unfold findOrder
    rw [horders]
  · unfold itemsOfOrder
    rw [hitems]

/-- Deleting the rows of an order id makes subsequent lookups of that id
miss. -/
theorem find?_filter_ne_oid (l : List Order) (oid : String) :
    (l.filter (fun r => r.oid != oid)).find? (fun o => o.oid == oid)
      = none := by
  apply List.find?_eq_none.mpr
  intro x hx
  have h2 := (List.mem_filter.mp hx).2
  simp at h2 ⊢
  exact h2

/-- Deleting the line items of an order id leaves none of them behind. -/
theorem filter_ne_filter_eq_nil (l : List OrderItemRow) (oid : String) :
    (l.filter (fun r => r.orderId != oid)).filter
        (fun r => r.orderId == oid) = [] := by
  apply List.filter_eq_nil_iff.mpr
  intro x hx
  have h2 := (List.mem_filter.mp hx).2
  simp at h2 ⊢
  exact h2

/-- Spec of a successful cancellation: when the order exists and is not
delivered, the transaction restores every product's summed line-item
quantity and removes the order row and its line items. -/
theorem cancelOrder_ok_spec (db : DB) (oid : String) (o : Order)
    (ho : findOrder db oid = some o) (hstat : o.status ≠ "delivered") :
    ∃ db1, cancelOrder db oid = .ok db1 ∧
      (∀ pid, stockOf db1 pid
          = (stockOf db pid).map
              (fun s => s + qtySum (itemsOfOrder db oid) pid)) ∧
      findOrder db1 oid = none ∧ itemsOfOrder db1 oid = [] := by
  have hstep : cancelOrder db oid = .ok
      { (itemsOfOrder db oid).foldl
          (fun d it => restoreStock d it.productId it.quantity) db with
        orderItems := ((itemsOfOrder db oid).foldl
          (fun d it => restoreStock d it.productId it.quantity) db).orderItems.filter
            (fun r => r.orderId != oid),
        orders := ((itemsOfOrder db oid).foldl
          (fun d it => restoreStock d it.productId it.quantity) db).orders.filter
            (fun r => r.oid != oid) } := by
    unfold cancelOrder
    rw [ho]
    simp [hstat]
  refine ⟨_, hstep, ?_, ?_, ?_⟩
  · intro pid
    have h1 : stockOf
        { (itemsOfOrder db oid).foldl
            (fun d it => restoreStock d it.productId it.quantity) db with
          orderItems := ((itemsOfOrder db oid).foldl
            (fun d it => restoreStock d it.productId it.quantity) db).orderItems.filter
              (fun r => r.orderId != oid),
          orders := ((itemsOfOrder db oid).foldl
            (fun d it => restoreStock d it.productId it.quantity) db).orders.filter
              (fun r => r.oid != oid) } pid
        = stockOf ((itemsOfOrder db oid).foldl
            (fun d it => restoreStock d it.productId it.quantity) db) pid := rfl
    rw [h1, stockOf_foldl_restore]
  · unfold findOrder
    have h2 : (({ (itemsOfOrder db oid).foldl
        (fun d it => restoreStock d it.productId it.quantity) db with
        orderItems := ((itemsOfOrder db oid).foldl
          (fun d it => restoreStock d it.productId it.quantity) db).orderItems.filter
            (fun r => r.orderId != oid),
        orders := ((itemsOfOrder db oid).foldl
          (fun d it => restoreStock d it.productId it.quantity) db).orders.filter
            (fun r => r.oid != oid) } : DB)).orders
        = ((itemsOfOrder db oid).foldl
          (fun d it => restoreStock d it.productId it.quantity) db).orders.filter
            (fun r => r.oid != oid) := rfl
    rw [h2, find?_filter_ne_oid]
  · unfold itemsOfOrder
    apply filter_ne_filter_eq_nil

/-- Claim C3: for every existing order, cancellation succeeds exactly when
the status is not `delivered`; a delivered order's cancellation fails with
`CannotCancelDelivered` and changes nothing; a successful cancellation
restores, for every product, the summed quantity of the order's line items
and removes the order row and its line items as one unit. -/
theorem cancel_delivered_contract (db : DB) (oid : String) (o : Order)
    (ho : findOrder db oid = some o) :
    (o.status = "delivered" →
        cancelOrder db oid = .error .cannotCancelDelivered ∧
        runCancel db oid = db) ∧
    (o.status ≠ "delivered" →
        ∃ db1, cancelOrder db oid = .ok db1 ∧
          (∀ pid, stockOf db1 pid
              = (stockOf db pid).map
                  (fun s => s + qtySum (itemsOfOrder db oid) pid)) ∧
          findOrder db1 oid = none ∧ itemsOfOrder db1 oid = []) := by
  constructor
  · intro hstat
    have herr : cancelOrder db oid = .error .cannotCancelDelivered := by
      unfold cancelOrder
      rw [ho]
      simp [hstat]
    exact ⟨herr, by unfold runCancel; rw [herr]⟩
  · exact fun hstat => cancelOrder_ok_spec db oid o ho hstat

/-- Witness for C3 at a concrete input: the delivered order `o1` exists
and the cancellation contract holds for it. -/
theorem cancel_delivered_contract_witness :
    findOrder deliveredDB "o1" = some deliveredOrder ∧
    ((deliveredOrder.status = "delivered" →
        cancelOrder deliveredDB "o1" = .error .cannotCancelDelivered ∧
        runCancel deliveredDB "o1" = deliveredDB) ∧
    (deliveredOrder.status ≠ "delivered" →
        ∃ db1, cancelOrder deliveredDB "o1" = .ok db1 ∧
          (∀ pid, stockOf db1 pid
              = (stockOf deliveredDB pid).map
                  (fun s => s + qtySum (itemsOfOrder deliveredDB "o1") pid)) ∧
          findOrder db1 "o1" = none ∧ itemsOfOrder db1 "o1" = [])) :=
  ⟨by decide,
    cancel_delivered_contract deliveredDB "o1" deliveredOrder (by decide)⟩

/-- Claim C6: creating an order for quantity `q` of a product with stock
`s` (`q ≤ s`) and immediately cancelling it, with no interleaved
operation, restores the product's stock to exactly `s`, and the cancelled
order is no longer retrievable. -/
theorem cancellation_round_trip (db : DB) (oid uid pid addr : String)
    (q : Int) (p : Product)
    (hne : uid ≠ "") (hu : db.users.contains uid = true)
    (hp : findProduct db pid = some p) (hq : q ≤ p.stock)
    (hfresh : findOrder db oid = none)
    (hfreshItems : itemsOfOrder db oid = []) :
    ∃ db1 res, createOrder db oid uid [(pid, q)] addr = .ok (db1, res) ∧
      ∃ db2, cancelOrder db1 oid = .ok db2 ∧
        stockOf db2 pid = some p.stock ∧
        getOrder db2 oid = .error .orderNotFound := by
  have hall : ∀ it ∈ [(pid, q)], ∃ pr,
      findProduct db it.1 = some pr ∧ ¬ pr.stock < it.2 := by
    intro it hit
    have : it = (pid, q) := by simpa using hit
    subst this
    exact ⟨p, hp, not_lt.mpr hq⟩
  have hco := createOrder_ok db oid uid [(pid, q)] addr hne (by simp) hu hall
  have hord := findOrder_commitOrder_self db oid uid addr
    (totalOf db [(pid, q)]) ([(pid, q)].map (pendingOf db)) hfresh
  have hitemsA : itemsOfOrder
      (commitOrder db oid uid addr (totalOf db [(pid, q)])
        ([(pid, q)].map (pendingOf db))) oid
      = [rowOf oid (pendingOf db (pid, q))] := by
    unfold itemsOfOrder
    rw [commitOrder_orderItems, List.filter_append]
    unfold itemsOfOrder at hfreshItems
    rw [hfreshItems]
    simp [rowOf]
  obtain ⟨db2, hcan, hstock, hfindNone, _⟩ :=
    cancelOrder_ok_spec
      (commitOrder db oid uid addr (totalOf db [(pid, q)])
        ([(pid, q)].map (pendingOf db))) oid
      { oid := oid, userId := uid, status := "pending",
        total := totalOf db [(pid, q)], shipping := addr }
      hord (by simp)
  refine ⟨_, _, hco, db2, hcan, ?_, ?_⟩
  · rw [hstock pid, hitemsA, stockOf_commitOrder]
    unfold stockOf
    rw [hp]
    simp [qtySum, rowOf, pendingOf, pendingQtySum]
  · unfold getOrder
    rw [hfindNone]

/-- Witness for C6 at a concrete input: ordering all five widgets and
cancelling restores stock 5, and the order is gone. -/
theorem cancellation_round_trip_witness :
    ("u1" : String) ≠ "" ∧ sampleDB.users.contains "u1" = true ∧
    findProduct sampleDB "p1" = some sampleProduct ∧
    (5 : Int) ≤ sampleProduct.stock ∧
    findOrder sampleDB "o2" = none ∧ itemsOfOrder sampleDB "o2" = [] ∧
    (∃ db1 res, createOrder sampleDB "o2" "u1" [("p1", 5)] "" = .ok (db1, res) ∧
      ∃ db2, cancelOrder db1 "o2" = .ok db2 ∧
        stockOf db2 "p1" = some sampleProduct.stock ∧
        getOrder db2 "o2" = .error .orderNotFound) :=
  ⟨by decide, by decide, by decide, by decide, by decide, by decide,
    cancellation_round_trip sampleDB "o2" "u1" "p1" "" 5 sampleProduct
      (by decide) (by decide) (by decide) (by decide) (by decide) (by decide)⟩

/-- The pending-item quantity sum of the validated snapshot of a request
equals the requested per-product quantity sum. -/
theorem pendingQtySum_map_pendingOf (db : DB) (items : List (String × Int))
    (k : String) :
    pendingQtySum (items.map (pendingOf db)) k = orderedQty items k := by
  unfold pendingQtySum orderedQty
  rw [List.filter_map, List.map_map]
  have h1 : ((fun it => it.productId == k) ∘ pendingOf db)
      = (fun it : String × Int => it.1 == k) := by
    funext x
    simp [pendingOf]
  have h2 : ((fun it => it.quantity) ∘ pendingOf db)
      = (fun it : String × Int => it.2) := by
    funext x
    simp [pendingOf]
  rw [h1, h2]

/-- Every row the commit loop inserts carries the new order's id. -/
theorem filter_map_rowOf (oid : String) (L : List PendingItem) :
    (L.map (rowOf oid)).filter (fun r => r.orderId == oid)
      = L.map (rowOf oid) := by
  rw [List.filter_map]
  have h1 : ((fun r => r.orderId == oid) ∘ rowOf oid)
      = (fun _ : PendingItem => true) := by
    funext x
    simp [rowOf]
  rw [h1, List.filter_true]

/-- Claim C7: a successful order creation persists total equal to the sum
over items of the catalog price at validation time times the quantity,
snapshots each line item's price from the catalog at that moment, starts
the order in status `pending`, and decrements every product's stock by
the total quantity the request attributes to it. -/
theorem create_order_snapshot (db : DB) (oid uid addr : String)
    (items : List (String × Int))
    (hne : uid ≠ "") (hnil : items ≠ [])
    (hu : db.users.contains uid = true)
    (hall : ∀ it ∈ items, ∃ pr, findProduct db it.1 = some pr ∧ ¬ pr.stock < it.2)
    (hfresh : findOrder db oid = none)
    (hfreshItems : itemsOfOrder db oid = []) :
    ∃ db1 ord, createOrder db oid uid items addr = .ok (db1, some ord) ∧
      findOrder db1 oid = some ord ∧
      ord.total = totalOf db items ∧
      ord.status = "pending" ∧
      itemsOfOrder db1 oid = (items.map (pendingOf db)).map (rowOf oid) ∧
      (∀ k, stockOf db1 k
          = (stockOf db k).map (fun s => s - orderedQty items k)) := by
  have hco := createOrder_ok db oid uid items addr hne hnil hu hall
  have hord := findOrder_commitOrder_self db oid uid addr
    (totalOf db items) (items.map (pendingOf db)) hfresh
  refine ⟨commitOrder db oid uid addr (totalOf db items)
      (items.map (pendingOf db)),
    { oid := oid, userId := uid, status := "pending",
      total := totalOf db items, shipping := addr }, ?_, hord, rfl, rfl, ?_, ?_⟩
  · rw [hco, hord]
  · unfold itemsOfOrder
    rw [commitOrder_orderItems, List.filter_append]
    unfold itemsOfOrder at hfreshItems
    rw [hfreshItems, filter_map_rowOf]
    rfl
  · intro k
    rw [stockOf_commitOrder, pendingQtySum_map_pendingOf]

/-- Witness for C7 at a concrete input: a three-widget order totals 30,
snapshots price 10, starts pending, and drops stock from 5 to 2. -/
theorem create_order_snapshot_witness :
    ("u1" : String) ≠ "" ∧ ([("p1", (3 : Int))] : List (String × Int)) ≠ [] ∧
    sampleDB.users.contains "u1" = true ∧
    (∀ it ∈ [(("p1" : String), (3 : Int))], ∃ pr,
        findProduct sampleDB it.1 = some pr ∧ ¬ pr.stock < it.2) ∧
    findOrder sampleDB "o3" = none ∧ itemsOfOrder sampleDB "o3" = [] ∧
    (∃ db1 ord, createOrder sampleDB "o3" "u1" [("p1", 3)] "" = .ok (db1, some ord) ∧
      findOrder db1 "o3" = some ord ∧
      ord.total = totalOf sampleDB [("p1", 3)] ∧
      ord.status = "pending" ∧
      itemsOfOrder db1 "o3"
        = ([(("p1" : String), (3 : Int))].map (pendingOf sampleDB)).map (rowOf "o3") ∧
      (∀ k, stockOf db1 k
          = (stockOf sampleDB k).map
              (fun s => s - orderedQty [("p1", 3)] k))) :=
  ⟨by decide, by decide, by decide,
    by
      intro it hit
      have : it = ("p1", (3 : Int)) := by simpa using hit
      subst this
      exact ⟨sampleProduct, by decide, by decide⟩,
    by decide, by decide,
    create_order_snapshot sampleDB "o3" "u1" "" [("p1", 3)] (by decide)
      (by decide) (by decide)
      (by
        intro it hit
        have : it = ("p1", (3 : Int)) := by simpa using hit
        subst this
        exact ⟨sampleProduct, by decide, by decide⟩)
      (by decide) (by decide)⟩

/-- Claim C10 (implicit): quantities are never validated for positivity —
an item with `quantity <= 0` passes the stock check (`stock < quantity`
is false for non-negative stock), the order commits, a negative quantity
makes the commit increase the product's stock, and the item contributes
`price * quantity <= 0` to the total (strictly negative for a positive
price). -/
theorem negative_quantity_accepted (db : DB) (oid uid pid addr : String)
    (q : Int) (p : Product)
    (hne : uid ≠ "") (hu : db.users.contains uid = true)
    (hp : findProduct db pid = some p) (hstock : 0 ≤ p.stock) (hq : q ≤ 0)
    (hfresh : findOrder db oid = none) :
    ¬ p.stock < q ∧
    ∃ db1 ord, createOrder db oid uid [(pid, q)] addr = .ok (db1, some ord) ∧
      stockOf db1 pid = some (p.stock - q) ∧
      p.stock ≤ p.stock - q ∧
      ord.total = p.price * (q : Rat) ∧
      (q < 0 → p.stock < p.stock - q) ∧
      (q < 0 → 0 < p.price → ord.total < 0) := by
  have hnlt : ¬ p.stock < q := not_lt.mpr (hq.trans hstock)
  have hall : ∀ it ∈ [(pid, q)], ∃ pr,
      findProduct db it.1 = some pr ∧ ¬ pr.stock < it.2 := by
    intro it hit
    have : it = (pid, q) := by simpa using hit
    subst this
    exact ⟨p, hp, hnlt⟩
  have hco := createOrder_ok db oid uid [(pid, q)] addr hne (by simp) hu hall
  have hord := findOrder_commitOrder_self db oid uid addr
    (totalOf db [(pid, q)]) ([(pid, q)].map (pendingOf db)) hfresh
  have htot : totalOf db [(pid, q)] = p.price * (q : Rat) := by
    simp [totalOf, priceOf, hp]
  refine ⟨hnlt, commitOrder db oid uid addr (totalOf db [(pid, q)])
      ([(pid, q)].map (pendingOf db)),
    { oid := oid, userId := uid, status := "pending",
      total := totalOf db [(pid, q)], shipping := addr },
    by rw [hco, hord], ?_, ?_, htot, ?_, ?_⟩
  · rw [stockOf_commitOrder]
    unfold stockOf
    rw [hp]
    simp [pendingQtySum, pendingOf]
  · omega
  · intro hq'
    omega
  · intro hq' hpr
    show totalOf db [(pid, q)] < 0
    rw [htot]
    have hqr : (q : Rat) < 0 := by exact_mod_cast hq'
    exact mul_neg_of_pos_of_neg hpr hqr

/-- Witness for C10 at a concrete input: an order for quantity `-5` of a
widget with stock 5 commits, raises stock to 10, and totals `-50`. -/
theorem negative_quantity_accepted_witness :
    ("u1" : String) ≠ "" ∧ sampleDB.users.contains "u1" = true ∧
    findProduct sampleDB "p1" = some sampleProduct ∧
    (0 : Int) ≤ sampleProduct.stock ∧ ((-5 : Int) ≤ 0) ∧
    findOrder sampleDB "o4" = none ∧
    (¬ sampleProduct.stock < (-5 : Int) ∧
    ∃ db1 ord, createOrder sampleDB "o4" "u1" [("p1", -5)] "" = .ok (db1, some ord) ∧
      stockOf db1 "p1" = some (sampleProduct.stock - (-5)) ∧
      sampleProduct.stock ≤ sampleProduct.stock - (-5) ∧
      ord.total = sampleProduct.price * ((-5 : Int) : Rat) ∧
      ((-5 : Int) < 0 → sampleProduct.stock < sampleProduct.stock - (-5)) ∧
      ((-5 : Int) < 0 → 0 < sampleProduct.price → ord.total < 0)) :=
  ⟨by decide, by decide, by decide, by decide, by decide, by decide,
    negative_quantity_accepted sampleDB "o4" "u1" "p1" "" (-5) sampleProduct
      (by decide) (by decide) (by decide) (by decide) (by decide) (by decide)⟩

/-- Claim C4: when the user exists, every requested product resolves, and
some item's product has stock below its quantity, the whole request fails
with `InsufficientStock` naming the product of the first such item, and
the database — stock, orders, line items — is unchanged. -/
theorem insufficient_stock_atomic (db : DB) (oid uid addr : String)
    (items : List (String × Int)) (pid₀ : String) (q₀ : Int) (p₀ : Product)
    (hne : uid ≠ "") (hu : db.users.contains uid = true)
    (hall : ∀ it ∈ items, (findProduct db it.1).isSome)
    (hfind : items.find? (insuffItem db) = some (pid₀, q₀))
    (hp : findProduct db pid₀ = some p₀) :
    createOrder db oid uid items addr
      = .error (.insufficientStockFor p₀.name) ∧
    runCreate db oid uid items addr = db := by
  have hnil : items ≠ [] := by
    intro h
    rw [h] at hfind
    simp at hfind
  have hval := validateItems_insufficient db items 0 [] pid₀ q₀ p₀ hall hfind hp
  have herr : createOrder db oid uid items addr
      = .error (.insufficientStockFor p₀.name) := by
    unfold createOrder
    rw [if_neg, if_pos hu, hval]
    simp [hne, hnil]
  exact ⟨herr, by unfold runCreate; rw [herr]⟩

/-- Witness for C4 at a concrete input: a request for nine widgets out of
five fails naming `Widget` and leaves the database unchanged. -/
theorem insufficient_stock_atomic_witness :
    ("u1" : String) ≠ "" ∧ sampleDB.users.contains "u1" = true ∧
    (∀ it ∈ [(("p1" : String), (9 : Int))], (findProduct sampleDB it.1).isSome) ∧
    ([(("p1" : String), (9 : Int))].find? (insuffItem sampleDB)
      = some ("p1", 9)) ∧
    findProduct sampleDB "p1" = some sampleProduct ∧
    (createOrder sampleDB "o5" "u1" [("p1", 9)] ""
        = .error (.insufficientStockFor sampleProduct.name) ∧
      runCreate sampleDB "o5" "u1" [("p1", 9)] "" = sampleDB) :=
  ⟨by decide, by decide, by decide, by decide, by decide,
    insufficient_stock_atomic sampleDB "o5" "u1" "" [("p1", 9)] "p1" 9
      sampleProduct (by decide) (by decide) (by decide) (by decide)
      (by decide)⟩

/-- A quantity-1 order on a product with at least one unit succeeds and
leaves the product with one unit less; the users table is untouched. -/
theorem createOrder_unit_success (db : DB) (oid uid pid addr : String)
    (p : Product)
    (hne : uid ≠ "") (hu : db.users.contains uid = true)
    (hp : findProduct db pid = some p) (hs : 1 ≤ p.stock) :
    ∃ db1 res, createOrder db oid uid [(pid, 1)] addr = .ok (db1, res) ∧
      db1.users = db.users ∧
      ∃ p', findProduct db1 pid = some p' ∧ p'.stock = p.stock - 1 := by
  have hall : ∀ it ∈ [(pid, (1 : Int))], ∃ pr,
      findProduct db it.1 = some pr ∧ ¬ pr.stock < it.2 := by
    intro it hit
    have : it = (pid, (1 : Int)) := by simpa using hit
    subst this
    exact ⟨p, hp, not_lt.mpr hs⟩
  have hco := createOrder_ok db oid uid [(pid, 1)] addr hne (by simp) hu hall
  refine ⟨_, _, hco, commitOrder_users _ _ _ _ _ _, ?_⟩
  have hst : (findProduct (commitOrder db oid uid addr (totalOf db [(pid, 1)])
      ([(pid, 1)].map (pendingOf db))) pid).map (fun r => r.stock)
      = some (p.stock - 1) := by
    have h := stockOf_commitOrder db oid uid addr (totalOf db [(pid, 1)])
      ([(pid, 1)].map (pendingOf db)) pid
    unfold stockOf at h
    rw [hp] at h
    rw [h]
    simp [pendingQtySum, pendingOf]
  exact Option.map_eq_some'.mp hst

/-- A quantity-1 order on an out-of-stock product fails with the
insufficient-stock message naming it. -/
theorem createOrder_unit_fail (db : DB) (oid uid pid addr : String)
    (p : Product)
    (hne : uid ≠ "") (hu : db.users.contains uid = true)
    (hp : findProduct db pid = some p) (hs : p.stock < 1) :
    createOrder db oid uid [(pid, 1)] addr
      = .error (.insufficientStockFor p.name) := by
  unfold createOrder
  have hval : validateItems db [(pid, 1)] 0 []
      = .error (.insufficientStockFor p.name) := by
    simp [validateItems, hp, hs]
  rw [if_neg, if_pos hu, hval]
  simp [hne]

/-- Running any serialization of quantity-1 order requests against a
product with `n` units yields `min requests n` successes, the rest
insufficient-stock failures, and leaves `n - min requests n` units. -/
theorem runUnitOrders_spec (oids : List String) (uid pid addr : String)
    (db : DB) (p : Product) (n : Nat)
    (hne : uid ≠ "") (hu : db.users.contains uid = true)
    (hp : findProduct db pid = some p) (hs : p.stock = (n : Int)) :
    (runUnitOrders uid pid addr oids db).2.1 = min oids.length n ∧
    (runUnitOrders uid pid addr oids db).2.2
      = oids.length - min oids.length n ∧
    stockOf (runUnitOrders uid pid addr oids db).1 pid
      = some ((n : Int) - (min oids.length n : Nat)) := by
  induction oids generalizing db p n with
  | nil =>
    refine ⟨by simp [runUnitOrders, Nat.zero_min],
      by simp [runUnitOrders], ?_⟩
    unfold runUnitOrders stockOf
    rw [hp]
    simp [hs, Nat.zero_min]
  | cons oid rest ih =>
    cases n with
    | zero =>
      have hfail := createOrder_unit_fail db oid uid pid addr p hne hu hp
        (by omega)
      have hrun : runUnitOrders uid pid addr (oid :: rest) db
          = ((runUnitOrders uid pid addr rest db).1,
             (runUnitOrders uid pid addr rest db).2.1,
             (runUnitOrders uid pid addr rest db).2.2 + 1) := by
        simp only [runUnitOrders, hfail]
      obtain ⟨ih1, ih2, ih3⟩ := ih db p 0 hu hp hs
      rw [hrun]
      refine ⟨?_, ?_, ?_⟩
      · simpa using ih1
      · simp only [Nat.min_zero] at ih2
        simp [Nat.min_zero, ih2]
      · simpa using ih3
    | succ m =>
      obtain ⟨db1, res, hok, husers, p', hp', hps⟩ :=
        createOrder_unit_success db oid uid pid addr p hne hu hp (by omega)
      have hu1 : db1.users.contains uid = true := by
        rw [husers]
        exact hu
      have hps' : p'.stock = (m : Int) := by omega
      have hrun : runUnitOrders uid pid addr (oid :: rest) db
          = ((runUnitOrders uid pid addr rest db1).1,
             (runUnitOrders uid pid addr rest db1).2.1 + 1,
             (runUnitOrders uid pid addr rest db1).2.2) := by
        simp only [runUnitOrders, hok]
      obtain ⟨ih1, ih2, ih3⟩ := ih db1 p' m hu1 hp' hps'
      rw [hrun]
      refine ⟨?_, ?_, ?_⟩
      · rw [ih1]
        rw [List.length_cons, Nat.succ_min_succ]
      · rw [ih2, List.length_cons, Nat.succ_min_succ]
        omega
      · rw [ih3]
        congr 1
        rw [List.length_cons, Nat.succ_min_succ]
        push_cast
        ring

/-- Claim C5: each HTTP handler runs synchronously to completion
(`better-sqlite3`), so the per-item check and decrement of one request
are atomic relative to other requests; under any serialization of
`N + k` concurrent quantity-1 requests against a product with stock `N`,
exactly `N` succeed, `k` fail with the insufficient-stock error, and the
final stock is 0. -/
theorem overselling_prevention (db : DB) (uid pid addr : String)
    (oids : List String) (p : Product) (N k : Nat)
    (hne : uid ≠ "") (hu : db.users.contains uid = true)
    (hp : findProduct db pid = some p) (hs : p.stock = (N : Int))
    (hlen : oids.length = N + k) (hk : 0 < k) :
    (runUnitOrders uid pid addr oids db).2.1 = N ∧
    (runUnitOrders uid pid addr oids db).2.2 = k ∧
    stockOf (runUnitOrders uid pid addr oids db).1 pid = some 0 := by
  obtain ⟨h1, h2, h3⟩ := runUnitOrders_spec oids uid pid addr db p N hne hu hp hs
  have hmin : min oids.length N = N := by
    rw [hlen]
    exact Nat.min_eq_right (Nat.le_add_right N k)
  refine ⟨?_, ?_, ?_⟩
  · rw [h1, hmin]
  · rw [h2, hmin, hlen]
    omega
  · rw [h3, hmin]
    simp

/-- Witness for C5 at a concrete input: two requests against one unit of
stock yield one success, one insufficient-stock failure, stock 0. -/
theorem overselling_prevention_witness :
    ("u1" : String) ≠ "" ∧ oversellDB.users.contains "u1" = true ∧
    findProduct oversellDB "p1" = some oversellProduct ∧
    oversellProduct.stock = ((1 : Nat) : Int) ∧
    (["a", "b"] : List String).length = 1 + 1 ∧ (0 : Nat) < 1 ∧
    ((runUnitOrders "u1" "p1" "" ["a", "b"] oversellDB).2.1 = 1 ∧
     (runUnitOrders "u1" "p1" "" ["a", "b"] oversellDB).2.2 = 1 ∧
     stockOf (runUnitOrders "u1" "p1" "" ["a", "b"] oversellDB).1 "p1"
       = some 0) :=
  ⟨by decide, by decide, by decide, by decide, by decide, by decide,
    overselling_prevention oversellDB "u1" "p1" "" ["a", "b"]
      oversellProduct 1 1
      (by decide) (by decide) (by decide) (by decide) (by decide)
      (by decide)⟩

/-- Claim C1 fails on the code: starting from non-negative stock
(one widget in stock), a createOrder request whose items list mentions
the same product twice, one unit each, passes both independent
per-item checks (each reads the unmodified stock 1), commits, and
leaves the product's stock at `-1` — the non-negativity invariant is
violated by a single operation. -/
theorem duplicate_item_oversell :
    stockOf oversellDB "p1" = some 1 ∧
    (createOrder oversellDB "o1" "u1" [("p1", 1), ("p1", 1)] "").toOption.isSome
      = true ∧
    stockOf (runCreate oversellDB "o1" "u1" [("p1", 1), ("p1", 1)] "") "p1"
      = some (-1) := by
  refine ⟨by decide, by decide, by decide⟩
